import Mathlib

/-!
# Verification of the nyfiken per-target check pipeline

A shallow embedding, in Lean 4, of the core of the `nyfiken` page-watcher:

* `distance.Approx` (package `distance`) — the ad-hoc dissimilarity score,
  modelled over exact rationals (`ℚ`); the Go code sums `float64` values of
  code points, and the sums of code points are integers, so the rational
  model is the mathematical content of the Go formula.
* package `strip` — the tree transforms `Numbers`, `Attrs`, `Scripts`, `HTML`.
  Go's `html.Node` is a pointer structure with `FirstChild`/`NextSibling`
  links; we mirror it with an inductive `Node` where `nil` is the null
  pointer, so the Go traversal loops become structural recursion over the
  sibling chain.
* package `page` — `UrlAsFilename`, `makeSelection`, `check`, `ForceUpdate`,
  with the external collaborators (HTTP download, cascadia CSS matching,
  `htmlutil.RenderClean`, `html.Parse`, Go's regexp engine, `filename.Encode`
  and `mail.Send`) abstracted as an `Externals` record of functions, and the
  per-target filesystem/update-set state threaded explicitly.
-/

namespace Nyfiken

/-! ## html.Node (golang.org/x/net/html)

`html.NodeType`: we keep the constructors the code distinguishes
(`ErrorNode`, `TextNode`, `DocumentNode`, `ElementNode`, `CommentNode`,
`DoctypeNode`). An attribute is a key/value pair. A `Node` is either the
null pointer or a node with its data, attributes, first child and next
sibling, exactly the fields the traversals in `strip` and `page` read. -/

inductive NodeType where
  | errorNode
  | text
  | document
  | element
  | comment
  | doctype
deriving DecidableEq, Repr

structure Attribute where
  key : String
  val : String
deriving DecidableEq, Repr

inductive Node where
  | nil : Node
  | mk (type : NodeType) (data : String) (attr : List Attribute)
       (firstChild : Node) (nextSibling : Node) : Node
deriving DecidableEq, Repr

end Nyfiken

namespace Nyfiken.settings

/-- `settings.Newline` — the default newline character. -/
def Newline : String := "\n"

/-- `settings.TimeoutDuration = 10 * time.Second` — duration until a timeout
is issued, in seconds. -/
def TimeoutDuration : Nat := 10

end Nyfiken.settings

namespace Nyfiken.distance

/-- The sum of the numeric code point values of the characters of `s`,
as a rational: `for _, chr := range str { sum += float64(chr) }`. -/
def charSum (s : String) : ℚ :=
  (s.data.map (fun c => (c.toNat : ℚ))).sum

/-- `distance.Approx` — an ad-hoc function for a percentage difference
between two strings (`distance/distance.go`). -/
def Approx (str1 str2 : String) : ℚ :=
  let sum1 := charSum str1
  let sum2 := charSum str2
  if sum1 > sum2 then 100 - (sum2 / sum1) * 100
  else if sum2 > sum1 then 100 - (sum1 / sum2) * 100
  else 0

theorem charSum_nonneg (s : String) : 0 ≤ charSum s := by
  unfold charSum
  induction s.data with
  | nil => simp
  | cons c cs ih =>
    simp only [List.map_cons, List.sum_cons]
    have : (0 : ℚ) ≤ (c.toNat : ℚ) := by positivity
    linarith

end Nyfiken.distance

namespace Nyfiken.strip

open Nyfiken

/-- Model of `unicode.IsDigit`. The `numbers` claims proved below do not
depend on which characters the predicate accepts. -/
def isDigitRune (c : Char) : Bool := c.isDigit

/-- The body of `strip.Numbers`' text-node case: rebuild `node.Data`
keeping only the characters that are not digits. -/
def stripDigits (s : String) : String :=
  ⟨s.data.filter (fun c => !isDigitRune c)⟩

/-- The `for c := node.FirstChild; c != nil; c = c.NextSibling { f(c) }`
loop of `strip.Numbers`: `f` is applied to every node of the sibling chain,
and `f` itself strips digits from text nodes and recurses into children. -/
def numbersChain : Node → Node
  | .nil => .nil
  | .mk t d a fc ns =>
      .mk t (if t = NodeType.text then stripDigits d else d) a
        (numbersChain fc) (numbersChain ns)

/-- `strip.Numbers` — removes numbers from all text nodes of an `html.Node`.
The top-level call `f(doc)` visits `doc` itself and its child chain but not
`doc`'s siblings. -/
def Numbers : Node → Node
  | .nil => .nil
  | .mk t d a fc ns =>
      .mk t (if t = NodeType.text then stripDigits d else d) a
        (numbersChain fc) ns

/-- The sibling-chain traversal of `strip.Attrs`: clear `node.Attr` on
element nodes. -/
def attrsChain : Node → Node
  | .nil => .nil
  | .mk t d a fc ns =>
      .mk t d (if t = NodeType.element then [] else a)
        (attrsChain fc) (attrsChain ns)

/-- `strip.Attrs` — removes all HTML attributes from an `html.Node`. -/
def Attrs : Node → Node
  | .nil => .nil
  | .mk t d a fc ns =>
      .mk t d (if t = NodeType.element then [] else a) (attrsChain fc) ns

/-- The sibling-chain traversal of `strip.Scripts`. On a script element the
Go code executes `node = nil; return`: the assignment writes the *local*
parameter and mutates nothing, and the `return` merely skips the recursion
into that node's children, so the tree is left untouched. -/
def scriptsChain : Node → Node
  | .nil => .nil
  | .mk t d a fc ns =>
      if t = NodeType.element ∧ d = "script" then
        .mk t d a fc (scriptsChain ns)
      else
        .mk t d a (scriptsChain fc) (scriptsChain ns)

/-- `strip.Scripts` — documented in the source as "removes all script
elements from an html.Node". -/
def Scripts : Node → Node
  | .nil => .nil
  | .mk t d a fc ns =>
      if t = NodeType.element ∧ d = "script" then .mk t d a fc ns
      else .mk t d a (scriptsChain fc) ns

/-- The text-collecting traversal of `strip.HTML` over a sibling chain:
`*newSel += strings.TrimSpace(node.Data) + settings.Newline` on text
nodes, pre-order. -/
def collectTextChain : Node → String
  | .nil => ""
  | .mk t d _ fc ns =>
      (if t = NodeType.text then d.trim ++ settings.Newline else "")
        ++ collectTextChain fc ++ collectTextChain ns

/-- `strip.HTML` collects the trimmed text of all text nodes below `doc`
(and of `doc` itself), then replaces `doc` by `html.Parse` of that text.
The parser is an external collaborator, passed in as `parse`. -/
def HTML (parse : String → Node) (doc : Node) : Node :=
  match doc with
  | .nil => parse ""
  | .mk t d _ fc _ =>
      parse ((if t = NodeType.text then d.trim ++ settings.Newline else "")
        ++ collectTextChain fc)

/-- Whether some node of the tree (the node itself, its children or its
siblings transitively) is a `script` element. -/
def hasScript : Node → Bool
  | .nil => false
  | .mk t d _ fc ns =>
      (t = NodeType.element ∧ d = "script" : Bool)
        || hasScript fc || hasScript ns

theorem stripDigits_idem (s : String) : stripDigits (stripDigits s) = stripDigits s := by
  unfold stripDigits
  simp [List.filter_filter]

theorem numbersChain_idem (n : Node) : numbersChain (numbersChain n) = numbersChain n := by
  induction n with
  | nil => rfl
  | mk t d a fc ns ihfc ihns =>
    by_cases h : t = NodeType.text <;>
      simp [numbersChain, h, ihfc, ihns, stripDigits_idem]

/-- `strip.Scripts` never modifies the sibling chain it traverses. -/
theorem scriptsChain_id (n : Node) : scriptsChain n = n := by
  induction n with
  | nil => rfl
  | mk t d a fc ns ihfc ihns =>
    by_cases h : t = NodeType.element ∧ d = "script" <;>
      simp [scriptsChain, h, ihfc, ihns]

/-- A document with one `script` element (holding a text child) under a
document root: `<script>var x = 1;</script>`. -/
def scriptExample : Node :=
  .mk NodeType.document "" []
    (.mk NodeType.element "script" []
      (.mk NodeType.text "var x = 1;" [] .nil .nil) .nil)
    .nil

end Nyfiken.strip

namespace Nyfiken.page

open Nyfiken

/-- Error values (`errutil` wraps messages; positions are irrelevant here). -/
abbrev Err := String

/-- The components of `*url.URL` that `page` reads: `Host`, `Path`,
`RawQuery`, and `String()` (the full URL used as the update-set key and in
error messages). -/
structure Url where
  host : String
  path : String
  rawQuery : String
  str : String
deriving DecidableEq, Repr

/-- `settings.Page` — per-page settings (fields read by `check` and
`makeSelection`). -/
structure PageSettings where
  interval : Nat := 0
  threshold : ℚ := 0
  recvMail : String := ""
  regexpPat : String := ""
  negexpPat : String := ""
  stripFuncs : List String := []
  header : List (String × String) := []
  selection : String := ""
deriving Repr

/-- The compulsory global mail settings consulted by `check`
(`settings.Global.SenderMail`). -/
structure SenderMail where
  address : String := ""
  authServer : String := ""
  outServer : String := ""
deriving Repr

/-- The part of `settings.Prog` that `check` reads. -/
structure Prog where
  senderMail : SenderMail := {}
deriving Repr

/-- `page.Page` — a site which is checked for changes. -/
structure Page where
  reqUrl : Url
  settings : PageSettings
deriving Repr

/-- `(*Page).UrlAsFilename` — `p.ReqUrl.Host + p.ReqUrl.Path + p.ReqUrl.RawQuery`. -/
def UrlAsFilename (p : Page) : String :=
  p.reqUrl.host ++ p.reqUrl.path ++ p.reqUrl.rawQuery

/-- A compiled Go regular expression, abstracted by its two behaviours the
code uses: `FindAllString(s, -1)` — the list of successive non-overlapping
matches, in order of appearance — and `ReplaceAllString s repl`. -/
structure GoRegexp where
  findAll : String → List String
  replaceAll : String → String → String

/-- The external collaborators of package `page`, abstracted as functions:
cascadia CSS compilation, `htmlutil.RenderClean`, `html.Parse` (total: on an
in-memory string reader it never fails, and `strip.HTML` discards its error),
`regexp.Compile`, `filename.Encode`, and `mail.Send`. -/
structure Externals where
  cascadiaCompile : String → Except Err (Node → List Node)
  renderClean : Node → Except Err String
  htmlParse : String → Node
  regexpCompile : String → Except Err GoRegexp
  encode : String → Except Err String
  mailSend : String → String → String → Except Err Unit

/-- The strip-function dispatch of `makeSelection`: switch on the lowercased
name; unknown names fall through to a no-op (no `default` case). -/
def applyStrip (E : Externals) (name : String) (doc : Node) : Node :=
  if name = "numbers" then strip.Numbers doc
  else if name = "attrs" then strip.Attrs doc
  else if name = "html" then strip.HTML E.htmlParse doc
  else if name = "scripts" then strip.Scripts doc
  else doc

/-- The render-and-concatenate loop of `makeSelection`:
`for _, hit := range result { s, err := htmlutil.RenderClean(hit); ...; selection += s }`. -/
def renderAll (E : Externals) : List Node → String → Except Err String
  | [], acc => .ok acc
  | hit :: rest, acc =>
      match E.renderClean hit with
      | .error e => .error e
      | .ok s => renderAll E rest (acc ++ s)

/-- The strip-funcs loop of `makeSelection`: re-parse the selection, apply
the named strip function, render back to text. -/
def stripLoop (E : Externals) : List String → String → Except Err String
  | [], sel => .ok sel
  | sf :: rest, sel =>
      let doc := E.htmlParse sel
      let doc := applyStrip E sf.toLower doc
      match E.renderClean doc with
      | .error e => .error e
      | .ok sel2 => stripLoop E rest sel2

/-- The inclusion-filter loop of `makeSelection`'s Regexp stage:
`selection = ""; for _, res := range result { selection += res + settings.Newline }`. -/
def filterInclude (ms : List String) : String :=
  ms.foldl (fun acc r => acc ++ r ++ settings.Newline) ""

/-- The Regexp stage applied to a compiled pattern: keep exactly the
non-overlapping matches, each followed by a newline. -/
def regexpStage (re : GoRegexp) (sel : String) : String :=
  filterInclude (re.findAll sel)

/-- `(*Page).makeSelection` — CSS selection, strip funcs, inclusion regexp,
exclusion regexp, in that order. -/
def makeSelection (E : Externals) (p : Page) (htmlNode : Node) : Except Err String :=
  match (if p.settings.selection = "" then .ok [htmlNode]
         else match E.cascadiaCompile p.settings.selection with
              | .error e => .error e
              | .ok s => .ok (s htmlNode) : Except Err (List Node)) with
  | .error e => .error e
  | .ok result =>
    match renderAll E result "" with
    | .error e => .error e
    | .ok sel0 =>
      match stripLoop E p.settings.stripFuncs sel0 with
      | .error e => .error e
      | .ok sel1 =>
        match (if p.settings.regexpPat = "" then .ok sel1
               else match E.regexpCompile p.settings.regexpPat with
                    | .error e => .error e
                    | .ok re => .ok (regexpStage re sel1) : Except Err String) with
        | .error e => .error e
        | .ok sel2 =>
          if p.settings.negexpPat = "" then .ok sel2
          else match E.regexpCompile p.settings.negexpPat with
               | .error e => .error e
               | .ok ne => .ok (ne.replaceAll sel2 "")

/-- The four per-target files `check` touches, one slot per distinct root
(`settings.CacheRoot`, `ReadRoot`, `DebugCacheRoot`, `DebugReadRoot`; all
four roots are distinct constants, so for one target these are four distinct
paths). `none` models `os.IsNotExist`. -/
structure FS where
  cache : Option String := none
  readF : Option String := none
  debugCache : Option String := none
  debugRead : Option String := none
deriving DecidableEq, Repr

/-- The mutable state `check` interacts with: the per-target files, the
in-memory update set `settings.Updates`, its persisted copy written by
`settings.SaveUpdates`, and the log of successfully delivered notification
mails (url, recipient, body). -/
structure St where
  fs : FS := {}
  updates : List String := []
  savedUpdates : List String := []
  mails : List (String × String × String) := []
deriving DecidableEq, Repr

/-- `settings.Updates[u] = true` — set-style insertion. -/
def insertUpdate (u : String) (us : List String) : List String :=
  if us.contains u then us else u :: us

/-- `delete(settings.Updates, u)` — map deletion. -/
def removeUpdate (u : String) (us : List String) : List String :=
  us.filter (fun v => v ≠ u)

/-- Which verbose report the completed check printed. -/
inductive Report where
  | newSite
  | updated
  | noUpdate
deriving DecidableEq, Repr

/-- The outcome of one `check` run: the returned error value, the final
state, and the branch reported. -/
structure CheckRes where
  ret : Except Err Unit
  st : St
  report : Option Report
deriving Repr

/-- The guard of the notification block: the page has a mail address and all
compulsory global mail settings are set. -/
def mailConfigured (G : Prog) (p : Page) : Bool :=
  p.settings.recvMail ≠ "" && G.senderMail.authServer ≠ ""
    && G.senderMail.outServer ≠ "" && G.senderMail.address ≠ ""

/-- The page used for the notification body: strip functions and the
inclusion regexp are cleared so the mail shows the unstripped selection. -/
def mailPage (p : Page) : Page :=
  { p with settings := { p.settings with stripFuncs := [], regexpPat := "" } }

/-- `(*Page).check` — the per-target check pipeline, from the point the
download result is available. `dl` is the result delivered on
`errWrapDownload`'s channel (`errWrapDownload` runs `p.download()` to
completion before returning its channel, so the `select` always receives
this result; see `fetchStage` below for the timed model). State is threaded
explicitly; file writes follow the source's order. `ioutil.WriteFile` and
`settings.SaveUpdates` are modelled as succeeding (in the source their
failure is a straight early `return err`). -/
def check (E : Externals) (G : Prog) (p : Page) (dl : Except Err Node)
    (st : St) : CheckRes :=
  match dl with
  | .error e => ⟨.error e, st, none⟩
  | .ok node =>
    match makeSelection E p node with
    | .error e => ⟨.error e, st, none⟩
    | .ok selection =>
      match E.encode (UrlAsFilename p) with
      | .error e => ⟨.error e, st, none⟩
      | .ok _linuxPath =>
        match E.renderClean node with
        | .error e => ⟨.error e, st, none⟩
        | .ok debug =>
          -- Update the debug comparison file.
          let st := { st with fs := { st.fs with debugCache := some debug } }
          -- Empty selection: alert the user instead of comparing.
          if selection.length = 0 then
            ⟨.error ("Update was empty. URL: " ++ p.reqUrl.str), st, none⟩
          else
            match st.fs.cache with
            | none =>
              -- First check: create the comparison, read and debug-read files.
              let st := { st with fs :=
                { st.fs with cache := some selection, readF := some selection,
                             debugRead := some debug } }
              ⟨.ok (), st, some .newSite⟩
            | some buf =>
              let dist := distance.Approx buf selection
              if dist > p.settings.threshold then
                let u := p.reqUrl.str
                let st := { st with updates := insertUpdate u st.updates }
                if mailConfigured G p then
                  match makeSelection E (mailPage p) node with
                  | .error e => ⟨.error e, st, none⟩
                  | .ok sel =>
                    match E.mailSend u p.settings.recvMail sel with
                    | .error e => ⟨.error e, st, none⟩
                    | .ok _ =>
                      let st := { st with
                        mails := (u, p.settings.recvMail, sel) :: st.mails }
                      let st := { st with updates := removeUpdate u st.updates }
                      let st := { st with savedUpdates := st.updates }
                      let st := { st with fs := { st.fs with cache := some selection } }
                      ⟨.ok (), st, some .updated⟩
                else
                  let st := { st with savedUpdates := st.updates }
                  let st := { st with fs := { st.fs with cache := some selection } }
                  ⟨.ok (), st, some .updated⟩
              else
                ⟨.ok (), st, some .noUpdate⟩

/-- `ForceUpdate` — checks all pages immediately. A goroutine per page runs
`p.Check(errChan)`; a collector goroutine logs every non-nil error received;
the function itself returns `nil` at once. `outcome` gives each page's
`check` result; the second component is the list the collector logs. -/
def ForceUpdate (pages : List Page) (outcome : Page → Except Err Unit) :
    Except Err Unit × List Err :=
  (Except.ok (),
   pages.filterMap (fun p =>
     match outcome p with
     | .error e => some e
     | .ok _ => none))

/-- The outcome of the `select` racing the download channel against
`time.After(settings.TimeoutDuration)`. -/
inductive FetchOutcome where
  | result (r : Except Err Unit)
  | timeout
deriving Repr

/-- Timed model of `check`'s fetch stage. Upon entering the `select`, Go
evaluates the channel operand `errWrapDownload(p)` first; that call runs
`p.download()` synchronously (taking `dlTime` seconds) and only then returns
a channel on which a goroutine sends the finished result (received
`sendDelay` seconds later). `time.After` is also only evaluated at that
point, so its timer fires `TimeoutDuration` seconds *after the download has
completed*. The select takes whichever case is ready first; the second
component is the time at which `check` proceeds, measured from the start of
the fetch stage. -/
def fetchStage (dlTime sendDelay : Nat) (dl : Except Err Unit) :
    FetchOutcome × Nat :=
  if dlTime + sendDelay ≤ dlTime + settings.TimeoutDuration then
    (.result dl, dlTime + sendDelay)
  else
    (.timeout, dlTime + settings.TimeoutDuration)

end Nyfiken.page

namespace Nyfiken

open Nyfiken

/-- C1: For every pair of strings (new snapshot, cached baseline), the
Differencer (`distance.Approx`) returns `100 * (1 − min(sum1,sum2)/max(sum1,sum2))`,
where `sum1` and `sum2` are the sums of the numeric code point values of all
characters of each string, and returns 0 when the two sums are equal
(including when both strings are empty). -/
theorem approx_eq_min_max_formula (str1 str2 : String) :
    distance.Approx str1 str2 =
      if distance.charSum str1 = distance.charSum str2 then 0
      else 100 * (1 - min (distance.charSum str1) (distance.charSum str2)
                    / max (distance.charSum str1) (distance.charSum str2)) := by
  unfold distance.Approx
  rcases lt_trichotomy (distance.charSum str1) (distance.charSum str2) with h | h | h
  · rw [if_neg (by exact not_lt_of_lt h), if_pos h, if_neg (by exact ne_of_lt h),
      min_eq_left h.le, max_eq_right h.le]
    ring
  · rw [if_neg (by simp [h]), if_neg (by simp [h]), if_pos h]
  · rw [if_pos h, if_neg (by exact ne_of_gt h), min_eq_right h.le, max_eq_left h.le]
    ring

/-- C9: The `numbers` transform is idempotent: for every document tree,
applying `strip.Numbers` twice yields the same tree (same data in every
text node) as applying it once. -/
theorem numbers_idempotent (doc : Node) :
    strip.Numbers (strip.Numbers doc) = strip.Numbers doc := by
  cases doc with
  | nil => rfl
  | mk t d a fc ns =>
    by_cases h : t = NodeType.text <;>
      simp [strip.Numbers, h, strip.numbersChain_idem, strip.stripDigits_idem]

/-- C5 (refuting): `strip.Scripts` does not remove script elements — the
`node = nil` assignment writes a local variable and mutates nothing, so
`Scripts` is the identity on every tree, and on a document containing a
`<script>` element the script element remains in the output. -/
theorem scripts_is_noop :
    (∀ doc : Node, strip.Scripts doc = doc) ∧
    strip.hasScript (strip.Scripts strip.scriptExample) = true := by
  constructor
  · intro doc
    cases doc with
    | nil => rfl
    | mk t d a fc ns =>
      by_cases h : t = NodeType.element ∧ d = "script" <;>
        simp [strip.Scripts, h, strip.scriptsChain_id]
  · decide

/-- Two distinct targets whose cache keys collide: `http://a.com/b?c`
(host `a.com`, path `/b`, query `c`) and `http://a.com/bc` (host `a.com`,
path `/bc`, empty query). -/
def collisionP1 : page.Page :=
  { reqUrl := { host := "a.com", path := "/b", rawQuery := "c",
                str := "http://a.com/b?c" },
    settings := {} }

def collisionP2 : page.Page :=
  { reqUrl := { host := "a.com", path := "/bc", rawQuery := "",
                str := "http://a.com/bc" },
    settings := {} }

/-- C6 (refuting): `UrlAsFilename` is not injective — `host ++ path ++ query`
without separators maps the two distinct targets `http://a.com/b?c` and
`http://a.com/bc` to the same string `"a.com/bc"`, so they share a baseline
cache file. -/
theorem urlAsFilename_collision :
    page.UrlAsFilename collisionP1 = page.UrlAsFilename collisionP2 ∧
    page.UrlAsFilename collisionP1 = "a.com/bc" ∧
    collisionP1.reqUrl.path ≠ collisionP2.reqUrl.path ∧
    collisionP1.reqUrl.rawQuery ≠ collisionP2.reqUrl.rawQuery := by
  refine ⟨rfl, rfl, by decide, by decide⟩

/-- C3 (refuting): the fetch stage always waits for the download in full and
then takes the result branch, whatever the download's duration — in
particular for an 11-second download against the 10-second
`TimeoutDuration`. `errWrapDownload` runs `p.download()` synchronously
before creating its channel, so the `time.After` timer only starts once the
download has already completed and the timeout case is unreachable (the
goroutine's send, here immediate, always wins the select). -/
theorem fetch_never_times_out (dlTime : Nat) (dl : Except page.Err Unit) :
    page.fetchStage dlTime 0 dl = (page.FetchOutcome.result dl, dlTime) := by
  simp [page.fetchStage]

/-- C10: `ForceUpdate` returns `nil` for every input list of pages,
regardless of how many individual page checks fail; the per-target check
errors are only consumed (logged) by the background collector goroutine. -/
theorem forceUpdate_returns_nil (pages : List page.Page)
    (outcome : page.Page → Except page.Err Unit) :
    (page.ForceUpdate pages outcome).1 = Except.ok () ∧
    (page.ForceUpdate pages outcome).2 =
      pages.filterMap (fun p =>
        match outcome p with
        | .error e => some e
        | .ok _ => none) :=
  ⟨rfl, rfl⟩

end Nyfiken

namespace Nyfiken.page

/-- Leftmost non-overlapping scan for a literal pattern, with explicit fuel
(one unit per examined character): at each position, if the pattern starts
here, emit it and resume after it; otherwise advance one character. This
models Go's `regexp.FindAllString(s, -1)` for a pattern such as `"(love)"`
that is a parenthesised literal. -/
def findAllAux (pat : List Char) : List Char → Nat → List String
  | _, 0 => []
  | [], _ => []
  | c :: rest, fuel + 1 =>
      if pat.isPrefixOf (c :: rest) then
        ⟨pat⟩ :: findAllAux pat (List.drop (pat.length - 1) rest) fuel
      else
        findAllAux pat rest fuel

/-- The list of successive non-overlapping matches of the literal `pat` in
`s`, in order of appearance. -/
def findAllLiteral (pat s : String) : List String :=
  findAllAux pat.data s.data s.data.length

/-- The compiled form of the inclusion pattern `"(love)"`: its matches are
exactly the occurrences of the literal `love`. -/
def loveRegexp : GoRegexp :=
  { findAll := fun s => findAllLiteral "love" s
    replaceAll := fun s _ => s }

theorem join_cons (s : String) (l : List String) :
    String.join (s :: l) = s ++ String.join l := by
  apply String.ext
  rw [String.join_eq, String.join_eq]
  simp [String.data_append]

theorem filterInclude_append (ms : List String) (acc : String) :
    ms.foldl (fun a r => a ++ r ++ settings.Newline) acc =
      acc ++ String.join (ms.map (fun m => m ++ settings.Newline)) := by
  induction ms generalizing acc with
  | nil => simp [String.join]
  | cons m rest ih =>
    simp only [List.foldl_cons, List.map_cons, join_cons]
    rw [ih]
    simp [String.append_assoc]

end Nyfiken.page

namespace Nyfiken

/-- C8: For every valid inclusion pattern and every input text, the Filter
stage (`makeSelection`'s Regexp stage) outputs exactly the concatenation of
every non-overlapping match of the pattern, in order of appearance, each
followed by a newline; zero matches yields the empty string; in particular
the pattern `"(love)"` on the text `"I love cats, love dogs"` yields
`"love\nlove\n"`. -/
theorem filter_stage_concatenates_matches :
    (∀ (re : page.GoRegexp) (text : String),
        page.regexpStage re text =
          String.join ((re.findAll text).map (fun m => m ++ settings.Newline))) ∧
    page.regexpStage page.loveRegexp "I hate mondays" = "" ∧
    page.regexpStage page.loveRegexp "I love cats, love dogs" = "love\nlove\n" := by
  refine ⟨fun re text => ?_, by decide, by decide⟩
  unfold page.regexpStage page.filterInclude
  rw [page.filterInclude_append]
  simp

end Nyfiken

namespace Nyfiken

/-- C2: For every target with no prior baseline (the cached comparison file
does not exist), a check that reaches the comparison stage writes the
current snapshot as the new baseline unconditionally and reports the target
as newly observed, never as changed: no update is flagged, no notification
is sent, and the check returns without error. -/
theorem check_first_observation (E : page.Externals) (G : page.Prog)
    (p : page.Page) (node : Node) (sel lp dbg : String) (st : page.St)
    (hms : page.makeSelection E p node = .ok sel)
    (henc : E.encode (page.UrlAsFilename p) = .ok lp)
    (hrender : E.renderClean node = .ok dbg)
    (hne : sel ≠ "")
    (hcache : st.fs.cache = none) :
    (page.check E G p (.ok node) st).ret = .ok () ∧
    (page.check E G p (.ok node) st).report = some .newSite ∧
    (page.check E G p (.ok node) st).st.fs.cache = some sel ∧
    (page.check E G p (.ok node) st).st.fs.readF = some sel ∧
    (page.check E G p (.ok node) st).st.fs.debugRead = some dbg ∧
    (page.check E G p (.ok node) st).st.updates = st.updates ∧
    (page.check E G p (.ok node) st).st.savedUpdates = st.savedUpdates ∧
    (page.check E G p (.ok node) st).st.mails = st.mails := by
  have hlen : ¬ sel.length = 0 := by
    intro h0
    apply hne
    cases sel with
    | mk data =>
      simp [String.length] at h0
      simp [h0]
  simp [page.check, hms, henc, hrender, hlen, hcache]

/-- C4: For every check in which the fully reduced snapshot produced by
selection, transforms and filtering is the empty string, the check fails
with a selection-configuration error ("Update was empty") and never
proceeds to the baseline comparison: the baseline, read copy, update set
and notifications are untouched and no branch (in particular not
"unchanged") is reported. -/
theorem check_empty_selection (E : page.Externals) (G : page.Prog)
    (p : page.Page) (node : Node) (lp dbg : String) (st : page.St)
    (hms : page.makeSelection E p node = .ok "")
    (henc : E.encode (page.UrlAsFilename p) = .ok lp)
    (hrender : E.renderClean node = .ok dbg) :
    (page.check E G p (.ok node) st).ret =
      .error ("Update was empty. URL: " ++ p.reqUrl.str) ∧
    (page.check E G p (.ok node) st).report = none ∧
    (page.check E G p (.ok node) st).st.fs.cache = st.fs.cache ∧
    (page.check E G p (.ok node) st).st.fs.readF = st.fs.readF ∧
    (page.check E G p (.ok node) st).st.updates = st.updates ∧
    (page.check E G p (.ok node) st).st.savedUpdates = st.savedUpdates ∧
    (page.check E G p (.ok node) st).st.mails = st.mails := by
  simp [page.check, hms, henc, hrender]

end Nyfiken

namespace Nyfiken.distance

/-- The dissimilarity score is never negative. -/
theorem Approx_nonneg (s1 s2 : String) : 0 ≤ Approx s1 s2 := by
  have h1 := charSum_nonneg s1
  have h2 := charSum_nonneg s2
  simp only [Approx]
  split_ifs with ha hb
  · have hpos : 0 < charSum s1 := lt_of_le_of_lt h2 ha
    have : charSum s2 / charSum s1 ≤ 1 := (div_le_one hpos).mpr ha.le
    linarith
  · have hpos : 0 < charSum s2 := lt_of_le_of_lt h1 hb
    have : charSum s1 / charSum s2 ≤ 1 := (div_le_one hpos).mpr hb.le
    linarith
  · exact le_refl 0

end Nyfiken.distance

namespace Nyfiken.page

theorem contains_insertUpdate (u : String) (us : List String) :
    (insertUpdate u us).contains u = true := by
  unfold insertUpdate
  by_cases h : us.contains u <;> simp_all

theorem mem_insertUpdate (u : String) (us : List String) :
    u ∈ insertUpdate u us := by
  unfold insertUpdate
  by_cases h : us.contains u <;> simp_all

end Nyfiken.page

namespace Nyfiken

/-- C7 (amended): whenever a check's dissimilarity score exceeds the
target's threshold, the UpdateSet entry is inserted first; the baseline
cache file is then overwritten with the new snapshot when no notification
is configured, or when notification delivery succeeds. When notification
delivery fails, `check` returns the mail error *before* the baseline write
and before persisting the update set, so the baseline keeps the old
snapshot, while the in-memory UpdateSet entry is retained. -/
theorem check_changed_notification (E : page.Externals) (G : page.Prog)
    (p : page.Page) (node : Node) (sel buf lp dbg : String) (st : page.St)
    (hms : page.makeSelection E p node = .ok sel)
    (henc : E.encode (page.UrlAsFilename p) = .ok lp)
    (hrender : E.renderClean node = .ok dbg)
    (hne : sel ≠ "")
    (hcache : st.fs.cache = some buf)
    (hdist : distance.Approx buf sel > p.settings.threshold) :
    (page.mailConfigured G p = false →
      (page.check E G p (.ok node) st).ret = .ok () ∧
      (page.check E G p (.ok node) st).st.fs.cache = some sel ∧
      (page.check E G p (.ok node) st).st.updates =
        page.insertUpdate p.reqUrl.str st.updates ∧
      (page.check E G p (.ok node) st).st.savedUpdates =
        page.insertUpdate p.reqUrl.str st.updates) ∧
    (page.mailConfigured G p = true →
      ∀ sel2, page.makeSelection E (page.mailPage p) node = .ok sel2 →
        (E.mailSend p.reqUrl.str p.settings.recvMail sel2 = .ok () →
          (page.check E G p (.ok node) st).ret = .ok () ∧
          (page.check E G p (.ok node) st).st.fs.cache = some sel ∧
          (page.check E G p (.ok node) st).st.mails =
            (p.reqUrl.str, p.settings.recvMail, sel2) :: st.mails ∧
          (page.check E G p (.ok node) st).st.updates =
            page.removeUpdate p.reqUrl.str
              (page.insertUpdate p.reqUrl.str st.updates)) ∧
        (∀ e, E.mailSend p.reqUrl.str p.settings.recvMail sel2 = .error e →
          (page.check E G p (.ok node) st).ret = .error e ∧
          (page.check E G p (.ok node) st).st.fs.cache = st.fs.cache ∧
          (page.check E G p (.ok node) st).st.updates.contains p.reqUrl.str
            = true ∧
          (page.check E G p (.ok node) st).st.savedUpdates = st.savedUpdates ∧
          (page.check E G p (.ok node) st).st.mails = st.mails)) := by
  have hlen : ¬ sel.length = 0 := by
    intro h0
    apply hne
    cases sel with
    | mk data =>
      simp [String.length] at h0
      simp [h0]
  refine ⟨fun hmc => ?_, fun hmc sel2 hms2 => ⟨fun hok => ?_, fun e herr => ?_⟩⟩
  · simp [page.check, hms, henc, hrender, hlen, hcache, hdist, hmc]
  · simp [page.check, hms, henc, hrender, hlen, hcache, hdist, hmc, hms2, hok]
  · simp [page.check, hms, henc, hrender, hlen, hcache, hdist, hmc, hms2, herr,
      page.contains_insertUpdate, page.mem_insertUpdate]

end Nyfiken

namespace Nyfiken

/-- A concrete external world for first-check runs: rendering any node
yields `"BODY"`, encoding is the identity, mail delivery succeeds. -/
def wExternals : page.Externals :=
  { cascadiaCompile := fun _ => .error "unused"
    renderClean := fun _ => .ok "BODY"
    htmlParse := fun _ => .nil
    regexpCompile := fun _ => .error "unused"
    encode := fun s => .ok s
    mailSend := fun _ _ _ => .ok () }

/-- Like `wExternals` but every node renders to the empty string, so the
reduced snapshot is empty. -/
def wEmptyExternals : page.Externals :=
  { cascadiaCompile := fun _ => .error "unused"
    renderClean := fun _ => .ok ""
    htmlParse := fun _ => .nil
    regexpCompile := fun _ => .error "unused"
    encode := fun s => .ok s
    mailSend := fun _ _ _ => .ok () }

/-- A target with all-default settings (whole document selected, no strip
functions, no patterns, no notification address). -/
def wPage : page.Page :=
  { reqUrl := { host := "example.org", path := "/", rawQuery := "",
                str := "http://example.org/" }
    settings := {} }

theorem check_first_observation_witness :
    (page.check wExternals {} wPage (.ok .nil) {}).ret = .ok () ∧
    (page.check wExternals {} wPage (.ok .nil) {}).report = some .newSite ∧
    (page.check wExternals {} wPage (.ok .nil) {}).st.fs.cache = some "BODY" ∧
    (page.check wExternals {} wPage (.ok .nil) {}).st.fs.readF = some "BODY" ∧
    (page.check wExternals {} wPage (.ok .nil) {}).st.fs.debugRead = some "BODY" ∧
    (page.check wExternals {} wPage (.ok .nil) {}).st.updates = [] ∧
    (page.check wExternals {} wPage (.ok .nil) {}).st.savedUpdates = [] ∧
    (page.check wExternals {} wPage (.ok .nil) {}).st.mails = [] :=
  check_first_observation wExternals {} wPage .nil "BODY" "example.org/" "BODY" {}
    rfl rfl rfl (by decide) rfl

theorem check_empty_selection_witness :
    (page.check wEmptyExternals {} wPage (.ok .nil) {}).ret =
      .error ("Update was empty. URL: " ++ "http://example.org/") ∧
    (page.check wEmptyExternals {} wPage (.ok .nil) {}).report = none ∧
    (page.check wEmptyExternals {} wPage (.ok .nil) {}).st.fs.cache = none ∧
    (page.check wEmptyExternals {} wPage (.ok .nil) {}).st.fs.readF = none ∧
    (page.check wEmptyExternals {} wPage (.ok .nil) {}).st.updates = [] ∧
    (page.check wEmptyExternals {} wPage (.ok .nil) {}).st.savedUpdates = [] ∧
    (page.check wEmptyExternals {} wPage (.ok .nil) {}).st.mails = [] :=
  check_empty_selection wEmptyExternals {} wPage .nil "example.org/" "" {}
    rfl rfl rfl

/-- An external world whose mail delivery fails: rendering yields `"NEW"`
and `mail.Send` returns an SMTP error. -/
def mailFailExternals : page.Externals :=
  { cascadiaCompile := fun _ => .error "unused"
    renderClean := fun _ => .ok "NEW"
    htmlParse := fun _ => .nil
    regexpCompile := fun _ => .error "unused"
    encode := fun s => .ok s
    mailSend := fun _ _ _ => .error "smtp: connection refused" }

/-- Global settings with all compulsory sender-mail fields set. -/
def mailProg : page.Prog :=
  { senderMail := { address := "bot@example.org"
                    authServer := "auth.example.org"
                    outServer := "smtp.example.org" } }

/-- A target with a notification address and threshold `-1`, which every
(nonnegative) dissimilarity score exceeds. -/
def mailPageEx : page.Page :=
  { reqUrl := { host := "example.org", path := "/", rawQuery := "",
                str := "http://example.org/" }
    settings := { threshold := -1, recvMail := "op@example.org" } }

/-- A state holding the prior baseline `"OLD"` for the target. -/
def mailSt : page.St := { fs := { cache := some "OLD" } }

/-- C7 (counterexample): a run whose dissimilarity score exceeds the
threshold and whose notification delivery fails, after which the baseline
cache file still holds the old snapshot `"OLD"` (not the new snapshot
`"NEW"`) and the check returns the mail error: the baseline is *not*
updated when notification delivery fails, because `check` sends the mail
before writing the comparison file and returns on the mail error. -/
theorem check_notification_failure_counterexample :
    distance.Approx "OLD" "NEW" > mailPageEx.settings.threshold ∧
    (page.check mailFailExternals mailProg mailPageEx (.ok .nil) mailSt).ret =
      .error "smtp: connection refused" ∧
    (page.check mailFailExternals mailProg mailPageEx (.ok .nil) mailSt).st.fs.cache
      = some "OLD" ∧
    (page.check mailFailExternals mailProg mailPageEx (.ok .nil) mailSt).st.updates
      = ["http://example.org/"] := by
  have hdist : distance.Approx "OLD" "NEW" > mailPageEx.settings.threshold := by
    have h0 := distance.Approx_nonneg "OLD" "NEW"
    have ht : mailPageEx.settings.threshold = -1 := rfl
    rw [ht]
    linarith
  have hms : page.makeSelection mailFailExternals mailPageEx .nil = .ok "NEW" := rfl
  have hms2 : page.makeSelection mailFailExternals (page.mailPage mailPageEx) .nil
      = .ok "NEW" := rfl
  have henc : mailFailExternals.encode (page.UrlAsFilename mailPageEx)
      = .ok "example.org/" := rfl
  have hrender : mailFailExternals.renderClean .nil = .ok "NEW" := rfl
  have hcache : mailSt.fs.cache = some "OLD" := rfl
  have hlen : ¬ ("NEW".length = 0) := by decide
  have hmc : page.mailConfigured mailProg mailPageEx = true := rfl
  have hmail : mailFailExternals.mailSend mailPageEx.reqUrl.str
      mailPageEx.settings.recvMail "NEW" = .error "smtp: connection refused" := rfl
  refine ⟨hdist, ?_⟩
  simp only [page.check, hms, hms2, henc, hrender, hcache, hlen, hmc, hmail, hdist,
    page.insertUpdate]
  simp [hdist, hlen, hmail]
  decide

theorem check_changed_notification_witness :
    (page.check mailFailExternals mailProg mailPageEx (.ok .nil) mailSt).ret =
      .error "smtp: connection refused" ∧
    (page.check mailFailExternals mailProg mailPageEx (.ok .nil) mailSt).st.fs.cache
      = mailSt.fs.cache ∧
    (page.check mailFailExternals mailProg mailPageEx (.ok .nil) mailSt).st.updates.contains
      "http://example.org/" = true ∧
    (page.check mailFailExternals mailProg mailPageEx (.ok .nil) mailSt).st.savedUpdates
      = mailSt.savedUpdates ∧
    (page.check mailFailExternals mailProg mailPageEx (.ok .nil) mailSt).st.mails
      = mailSt.mails := by
  have h := check_changed_notification mailFailExternals mailProg mailPageEx .nil
    "NEW" "OLD" "example.org/" "NEW" mailSt rfl rfl rfl (by decide) rfl
    (by
      have h0 := distance.Approx_nonneg "OLD" "NEW"
      have ht : mailPageEx.settings.threshold = -1 := rfl
      rw [ht]; linarith)
  have hb := (h.2 rfl "NEW" rfl).2 "smtp: connection refused" rfl
  exact ⟨hb.1, hb.2.1, hb.2.2.1, hb.2.2.2.1, hb.2.2.2.2⟩

end Nyfiken
